import Mathlib

/-!
Shallow embedding of the mac-notify polling/classification core
(src-tauri/src: models.rs, llm.rs, focus.rs, orchestrator.rs, commands.rs)
and proofs of the specification claims about it.

External collaborators (the SQLite notification store, the filesystem,
the LLM network backend, serde_json) are modelled as explicit inputs:
a read result is an Except value, the LLM backend is an outcome per
request, and JSON documents are an explicit inductive value type with
a small executable parser standing in for serde_json on the fragment
of JSON this program exchanges.
-/

/-- Urgency tiers, from models.rs UrgencyLevel. -/
inductive UrgencyLevel where
  | Critical
  | High
  | Medium
  | Low
deriving DecidableEq, Repr

/-- Display label of a tier, from models.rs UrgencyLevel::label. -/
def UrgencyLevel.label : UrgencyLevel → String
  | .Critical => "URGENT"
  | .High => "HIGH"
  | .Medium => "NORMAL"
  | .Low => "LOW"

/-- Display color of a tier, from models.rs UrgencyLevel::color. -/
def UrgencyLevel.color : UrgencyLevel → String
  | .Critical => "#ef4444"
  | .High => "#f97316"
  | .Medium => "#f59e0b"
  | .Low => "#22c55e"

/-- A raw record read from the notification store, models.rs Notification. -/
structure Notification where
  rowid : Int
  title : String
  body : String
  subtitle : String
  bundle_id : String
  timestamp : Int
deriving DecidableEq, Repr

/-- A classified notification held by the store, models.rs AnalyzedNotification. -/
structure AnalyzedNotification where
  id : Int
  title : String
  body : String
  subtitle : String
  bundle_id : String
  app_name : String
  urgency : UrgencyLevel
  summary_line : String
  reason : String
  timestamp : Int
deriving DecidableEq, Repr

/-- A classification result, models.rs NotificationAnalysis. -/
structure NotificationAnalysis where
  urgency : UrgencyLevel
  summary_line : String
  reason : String
deriving DecidableEq, Repr

/-- Binary environmental mode, models.rs FocusState. -/
inductive FocusState where
  | Active
  | Inactive
deriving DecidableEq, Repr

/-- Notification as shipped to the UI, models.rs UiNotification. -/
structure UiNotification where
  id : Int
  title : String
  body : String
  subtitle : String
  bundle_id : String
  app_name : String
  urgency_level : UrgencyLevel
  urgency_label : String
  urgency_color : String
  summary_line : String
  reason : String
  timestamp : Int
deriving DecidableEq, Repr

/-- One app group of the UI view, models.rs UiNotificationGroup
(the icon field is UI-only and omitted). -/
structure UiNotificationGroup where
  bundle_id : String
  app_name : String
  notifications : List UiNotification
deriving DecidableEq, Repr

/-- JSON values, modelling the serde_json Value type used by llm.rs and
focus.rs for classifier responses and the focus assertions document. -/
inductive Json where
  | null
  | bool (b : Bool)
  | num (n : Int)
  | str (s : String)
  | arr (elems : List Json)
  | obj (members : List (String × Json))

/-- Field lookup on a JSON object, modelling serde_json Value::get. -/
def Json.getKey : Json → String → Option Json
  | .obj members, key => members.lookup key
  | _, _ => none

/-- String extraction, modelling serde_json Value::as_str. -/
def Json.asStr : Json → Option String
  | .str s => some s
  | _ => none

/-- Array extraction, modelling serde_json Value::as_array. -/
def Json.asArr : Json → Option (List Json)
  | .arr elems => some elems
  | _ => none

/-- Object extraction, modelling serde_json Value::as_object. -/
def Json.asObj : Json → Option (List (String × Json))
  | .obj members => some members
  | _ => none

/-- Whitespace skipping for the JSON reader. -/
def skipWs : List Char → List Char
  | [] => []
  | c :: cs => if c = ' ' || c = '\n' || c = '\t' || c = '\r' then skipWs cs else c :: cs

/-- Reads the body of a JSON string after its opening quote, mapping the
common escapes; returns the string and the input after the closing quote. -/
def parseStringBody (acc : List Char) : List Char → Option (String × List Char)
  | [] => none
  | c :: cs =>
    if c = '"' then some (String.mk acc.reverse, cs)
    else if c = '\\' then
      match cs with
      | [] => none
      | e :: cs' =>
        let ec := if e = 'n' then '\n' else if e = 't' then '\t' else if e = 'r' then '\r' else e
        parseStringBody (ec :: acc) cs'
    else parseStringBody (c :: acc) cs

/-- Reads a JSON number; the fractional and exponent parts are consumed but
the value is modelled by its integer part (no claim depends on numerics). -/
def parseNumber (cs : List Char) : Option (Json × List Char) :=
  let (neg, cs1) : Bool × List Char :=
    match cs with
    | '-' :: rest => (true, rest)
    | _ => (false, cs)
  let (digits, rest) := cs1.span (·.isDigit)
  if digits.isEmpty then none
  else
    let v : Int := digits.foldl (fun a c => a * 10 + ((c.toNat - '0'.toNat : Nat) : Int)) 0
    let v := if neg then -v else v
    let (_, rest2) := rest.span (fun c => c.isDigit || c = '.' || c = 'e' || c = 'E' || c = '+' || c = '-')
    some (.num v, rest2)

mutual

/-- Fueled JSON value reader standing in for serde_json parsing. -/
def parseVal : Nat → List Char → Option (Json × List Char)
  | 0, _ => none
  | fuel + 1, cs =>
    match skipWs cs with
    | [] => none
    | c :: rest =>
      if c = '"' then
        match parseStringBody [] rest with
        | some (s, rest') => some (.str s, rest')
        | none => none
      else if c = '{' then
        match skipWs rest with
        | '}' :: rest' => some (.obj [], rest')
        | _ => parseMembers fuel rest []
      else if c = '[' then
        match skipWs rest with
        | ']' :: rest' => some (.arr [], rest')
        | _ => parseElems fuel rest []
      else if c = 't' then
        if rest.take 3 = ['r', 'u', 'e'] then some (.bool true, rest.drop 3) else none
      else if c = 'f' then
        if rest.take 4 = ['a', 'l', 's', 'e'] then some (.bool false, rest.drop 4) else none
      else if c = 'n' then
        if rest.take 3 = ['u', 'l', 'l'] then some (.null, rest.drop 3) else none
      else parseNumber (c :: rest)

/-- Reads the members of a JSON object after its opening brace. -/
def parseMembers : Nat → List Char → List (String × Json) → Option (Json × List Char)
  | 0, _, _ => none
  | fuel + 1, cs, acc =>
    match skipWs cs with
    | '"' :: rest =>
      match parseStringBody [] rest with
      | some (key, rest1) =>
        match skipWs rest1 with
        | ':' :: rest2 =>
          match parseVal fuel rest2 with
          | some (v, rest3) =>
            match skipWs rest3 with
            | ',' :: rest4 => parseMembers fuel rest4 (acc ++ [(key, v)])
            | '}' :: rest4 => some (.obj (acc ++ [(key, v)]), rest4)
            | _ => none
          | none => none
        | _ => none
      | none => none
    | _ => none

/-- Reads the elements of a JSON array after its opening bracket. -/
def parseElems : Nat → List Char → List Json → Option (Json × List Char)
  | 0, _, _ => none
  | fuel + 1, cs, acc =>
    match parseVal fuel cs with
    | some (v, rest) =>
      match skipWs rest with
      | ',' :: rest' => parseElems fuel rest' (acc ++ [v])
      | ']' :: rest' => some (.arr (acc ++ [v]), rest')
      | _ => none
    | none => none

end

/-- Whole-document JSON parse (must consume the full input, as
serde_json from_str does). -/
def Json.parseDoc (s : String) : Option Json :=
  match parseVal (s.length + 1) s.toList with
  | some (j, rest) => if (skipWs rest).isEmpty then some j else none
  | none => none

/-- Whitespace trimming at both ends, modelling Rust str::trim on the
character level (kernel-computable, unlike String.trim). -/
def rustTrim (s : String) : String :=
  String.mk (((s.toList.dropWhile Char.isWhitespace).reverse.dropWhile
    Char.isWhitespace).reverse)

/-- Local default summary line, from llm.rs default_summary_line: first
non-empty of trimmed title/body/subtitle (else a fixed placeholder), its
first 60 characters, with an ellipsis appended when longer than 60. -/
def default_summary_line (n : Notification) : String :=
  let text :=
    if !(rustTrim n.title).isEmpty then rustTrim n.title
    else if !(rustTrim n.body).isEmpty then rustTrim n.body
    else if !(rustTrim n.subtitle).isEmpty then rustTrim n.subtitle
    else "内容不明の通知"
  let truncated := String.mk (text.toList.take 60)
  if text.length > 60 then truncated.push '…' else truncated

/-- Deterministic local fallback classification, from llm.rs fallback_analysis. -/
def fallback_analysis (n : Notification) : NotificationAnalysis :=
  { urgency := .Medium
    summary_line := default_summary_line n
    reason := "LLM分析に失敗したため、ローカル規則で中優先として扱いました。" }

/-- Permissive response parsing, from llm.rs parse_analysis_response:
locate the first opening and last closing brace, parse that slice as JSON
(jsonOf stands for serde_json from_str), require a valid urgency_level,
and default the summary and reason fields when missing or blank. -/
def parse_analysis_response (jsonOf : String → Option Json) (text : String)
    (n : Notification) : Option NotificationAnalysis :=
  let cs := text.toList
  match cs.findIdx? (· = '{'), cs.reverse.findIdx? (· = '}') with
  | some start, some revstop =>
    let stop := cs.length - 1 - revstop
    if stop < start then none
    else
      match jsonOf (String.mk ((cs.drop start).take (stop - start + 1))) with
      | none => none
      | some parsed =>
        let urgencyOpt : Option UrgencyLevel :=
          match (parsed.getKey "urgency_level").bind Json.asStr with
          | some "critical" => some .Critical
          | some "high" => some .High
          | some "medium" => some .Medium
          | some "low" => some .Low
          | _ => none
        match urgencyOpt with
        | none => none
        | some urgency =>
          let summary_line :=
            ((((parsed.getKey "summary_line").bind Json.asStr).map rustTrim).filter
              (fun v => !v.isEmpty)).getD (default_summary_line n)
          let reason :=
            ((((parsed.getKey "reason").bind Json.asStr).map rustTrim).filter
              (fun v => !v.isEmpty)).getD "判定理由は取得できませんでした。"
          some { urgency := urgency, summary_line := summary_line, reason := reason }
  | _, _ => none

/-- Behaviour of the LLM backend for one request: unreachable at startup
(can_use false), a failed call (network or empty-response error), or a
raw response text. Models llm.rs LlmClient as seen by analyze_single. -/
inductive LlmOutcome where
  | unavailable
  | requestFailed
  | response (text : String)

/-- Classification of one notification, from orchestrator.rs analyze_single:
an unreachable backend yields the fixed medium result, a response is parsed
permissively, and a failed call or unparseable response falls back. -/
def analyze_single (jsonOf : String → Option Json) (outcome : LlmOutcome)
    (n : Notification) (_app_context : Option String) : NotificationAnalysis :=
  match outcome with
  | .unavailable =>
    { urgency := .Medium
      summary_line := default_summary_line n
      reason := "Ollamaが起動していないため分析できませんでした。`ollama serve` を実行してください。" }
  | .response text =>
    match parse_analysis_response jsonOf text n with
    | some parsed => parsed
    | none => fallback_analysis n
  | .requestFailed => fallback_analysis n

/-- Truthiness test applied to the assertion field, from focus.rs
is_focus_active: the field must be neither null nor the boolean false. -/
def assertionTruthy : Json → Bool
  | .null => false
  | .bool false => false
  | _ => true

/-- Focus-mode test on the parsed assertions document, from focus.rs
is_focus_active. -/
def is_focus_active (data : Json) : Bool :=
  (((data.getKey "data").bind Json.asArr).map (fun records =>
    records.any (fun record =>
      match (record.asObj).map (fun members => members.lookup "storeAssertionRecords") with
      | some (some v) => assertionTruthy v
      | _ => false))).getD false

/-- Mode detection, from focus.rs FocusModeDetector::get_state: the file
read and the JSON parse are explicit inputs; any failure yields Inactive. -/
def get_state (jsonOf : String → Option Json) (readResult : Except Unit String) : FocusState :=
  match readResult with
  | .error _ => .Inactive
  | .ok text =>
    match jsonOf text with
    | none => .Inactive
    | some data => if is_focus_active data then .Active else .Inactive

/-- Last dot-separated segment of a bundle identifier (the whole identifier
when the segment is empty), from orchestrator.rs app_name_from_bundle. -/
def app_name_from_bundle (bundle_id : String) : String :=
  let last := String.mk ((bundle_id.toList.reverse.takeWhile (fun c => c ≠ '.')).reverse)
  if last.isEmpty then bundle_id else last

/-- Mutable orchestrator state, from orchestrator.rs NotifyOrchestrator
(the reader and detector handles are external; their behaviour enters as
explicit per-cycle inputs; the two configuration maps are association
list / membership list models of the loaded HashMap and HashSet). -/
structure NotifyOrchestrator where
  app_prompts : List (String × String)
  ignored_apps : List String
  last_rowid : Int
  collected : List AnalyzedNotification
  was_focused : Bool

/-- Data returned from Phase 1 of the polling cycle, from orchestrator.rs
PollReadResult. -/
structure PollReadResult where
  pending : List (Notification × Option String)
  focus_ended : Bool

/-- Phase 1, from orchestrator.rs NotifyOrchestrator::poll_read_new: read
new records (advancing the cursor to the last returned rowid), keep them as
pending work only when focus is active and the source is not ignored, and
detect the Active to Inactive edge. The focus-file read and the DB read are
explicit inputs. -/
def poll_read_new (jsonOf : String → Option Json) (st : NotifyOrchestrator)
    (focusRead : Except Unit String)
    (readResult : Except Unit (List Notification)) :
    NotifyOrchestrator × PollReadResult :=
  let is_focused := decide (get_state jsonOf focusRead = FocusState.Active)
  let (last_rowid, pending) :
      Int × List (Notification × Option String) :=
    match readResult with
    | .ok new_notifications =>
      let lr :=
        match new_notifications.getLast? with
        | some last => last.rowid
        | none => st.last_rowid
      let p :=
        if is_focused then
          (new_notifications.filter
            (fun n => !st.ignored_apps.contains n.bundle_id)).map
            (fun n => (n, st.app_prompts.lookup n.bundle_id))
        else []
      (lr, p)
    | .error _ => (st.last_rowid, [])
  let focus_ended := !is_focused && st.was_focused && !st.collected.isEmpty
  ({ st with last_rowid := last_rowid, was_focused := is_focused },
   { pending := pending, focus_ended := focus_ended })

/-- Phase 3, from orchestrator.rs NotifyOrchestrator::poll_store_results:
append the batch results; reports whether anything changed. -/
def poll_store_results (st : NotifyOrchestrator)
    (results : List AnalyzedNotification) : NotifyOrchestrator × Bool :=
  if results.isEmpty then (st, false)
  else ({ st with collected := st.collected ++ results }, true)

/-- Count reported by the mode-ended side effect, from orchestrator.rs
NotifyOrchestrator::on_focus_ended (the notification text shows
collected.len()). -/
def on_focus_ended_count (st : NotifyOrchestrator) : Nat :=
  st.collected.length

/-- Phase 2, from orchestrator.rs analyze_notifications_batch: classify
each pending record (backend behaviour per record is an explicit input)
and also collect the tier-Critical results for later dialog delivery. -/
def analyze_notifications_batch (jsonOf : String → Option Json)
    (outcomeOf : Notification → LlmOutcome)
    (pending : List (Notification × Option String)) :
    List AnalyzedNotification × List AnalyzedNotification :=
  let results := pending.map (fun p =>
    let analysis := analyze_single jsonOf (outcomeOf p.1) p.1 p.2
    ({ id := p.1.rowid, title := p.1.title, body := p.1.body,
       subtitle := p.1.subtitle, bundle_id := p.1.bundle_id,
       app_name := app_name_from_bundle p.1.bundle_id,
       urgency := analysis.urgency, summary_line := analysis.summary_line,
       reason := analysis.reason,
       timestamp := p.1.timestamp } : AnalyzedNotification))
  (results, results.filter (fun a => decide (a.urgency = UrgencyLevel.Critical)))

/-- Conversion of a stored entry to its UI form, from the literal in
orchestrator.rs NotifyOrchestrator::notification_groups. -/
def toUi (item : AnalyzedNotification) : UiNotification :=
  { id := item.id, title := item.title, body := item.body,
    subtitle := item.subtitle, bundle_id := item.bundle_id,
    app_name := item.app_name, urgency_level := item.urgency,
    urgency_label := item.urgency.label, urgency_color := item.urgency.color,
    summary_line := item.summary_line, reason := item.reason,
    timestamp := item.timestamp }

/-- Lexicographic order on character lists by codepoint; on valid UTF-8
this coincides with the byte order Rust's BTreeMap of String keys uses. -/
def charsLt : List Char → List Char → Bool
  | [], [] => false
  | [], _ :: _ => true
  | _ :: _, [] => false
  | a :: as, b :: bs =>
    if a.toNat < b.toNat then true
    else if b.toNat < a.toNat then false
    else charsLt as bs

/-- String order of the BTreeMap keys. -/
def strLt (a b : String) : Bool := charsLt a.toList b.toList

/-- Key-ordered grouping insertion: the association list is kept sorted
ascending by key and a new value is appended at the end of its group,
mirroring BTreeMap entry().or_default().push() in notification_groups. -/
def insertGrouped (key : String) (v : UiNotification) :
    List (String × List UiNotification) → List (String × List UiNotification)
  | [] => [(key, [v])]
  | (k, vs) :: rest =>
    if strLt key k then (key, [v]) :: (k, vs) :: rest
    else if key = k then (k, vs ++ [v]) :: rest
    else (k, vs) :: insertGrouped key v rest

/-- Newest-first order on UI notifications, the comparator of the inner
sort_by in notification_groups. -/
def newerFirst (a b : UiNotification) : Prop := b.timestamp ≤ a.timestamp

instance : DecidableRel newerFirst := fun a b => Int.decLe b.timestamp a.timestamp

/-- Timestamp key of the outer group sort: the first (newest) member, 0
for an empty group, from notification_groups. -/
def groupTs (g : UiNotificationGroup) : Int :=
  (g.notifications.head?.map (fun n => n.timestamp)).getD 0

/-- Newest-first order on groups, the comparator of the outer sort_by in
notification_groups. -/
def groupNewerFirst (a b : UiNotificationGroup) : Prop := groupTs b ≤ groupTs a

instance : DecidableRel groupNewerFirst := fun a b => Int.decLe (groupTs b) (groupTs a)

/-- Grouped UI view, from orchestrator.rs
NotifyOrchestrator::notification_groups: group by bundle_id (BTreeMap,
iterating collected newest-first), sort each group newest-first by
timestamp, then sort groups by their first (newest) timestamp descending.
Rust's sort_by is a stable sort, so it is modelled by insertion sort,
which computes the same list for every input of a total preorder. -/
def notification_groups (st : NotifyOrchestrator) : List UiNotificationGroup :=
  let grouped := st.collected.reverse.foldl
    (fun m item => insertGrouped item.bundle_id (toUi item) m) []
  let groups := grouped.map (fun kv =>
    let notifications := kv.2.insertionSort newerFirst
    let app_name :=
      (notifications.head?.map (fun n => n.app_name)).getD
        (app_name_from_bundle kv.1)
    ({ bundle_id := kv.1, app_name := app_name,
       notifications := notifications } : UiNotificationGroup))
  groups.insertionSort groupNewerFirst

/-- Index of the counter bumped per tier, from the match arms of
orchestrator.rs NotifyOrchestrator::urgency_counts. -/
def urgency_index : UrgencyLevel → Nat
  | .Critical => 0
  | .High => 1
  | .Medium => 2
  | .Low => 3

/-- Per-tier counts, from orchestrator.rs NotifyOrchestrator::urgency_counts. -/
def urgency_counts (st : NotifyOrchestrator) : List Nat :=
  st.collected.foldl
    (fun counts n =>
      counts.set (urgency_index n.urgency)
        (counts.getD (urgency_index n.urgency) 0 + 1))
    [0, 0, 0, 0]

/-- Upper bound on one dummy injection, from orchestrator.rs
MAX_DUMMY_INSERT_COUNT. -/
def MAX_DUMMY_INSERT_COUNT : Nat := 30

/-- Rotating app table of the dummy injector, from orchestrator.rs
inject_dummy_notifications APPS. -/
def dummyApps : List (String × String) :=
  [("com.tinyspeck.slackmacgap", "Slack"),
   ("com.apple.mobilemail", "Mail"),
   ("com.apple.iCal", "Calendar"),
   ("com.apple.reminders", "Reminders")]

/-- Rotating sample table of the dummy injector
(summary, body, reason, urgency), from orchestrator.rs SAMPLES. -/
def dummySamples : List (String × String × String × UrgencyLevel) :=
  [("緊急対応が必要", "プロダクションエラー率が急上昇しています。",
    "監視通知で即時確認が必要なパターン", .Critical),
   ("15:00会議の招待更新", "会議URLが新しいリンクに変更されました。",
    "本日中に確認すべき更新", .High),
   ("レビュー依頼があります", "PR #128 のレビュー依頼が届いています。",
    "作業中断の優先度は中程度", .Medium),
   ("請求書が発行されました", "今月分の請求書を確認してください。",
    "期限前に確認すればよい通知", .Low),
   ("配達予定が更新されました", "荷物の到着予定時刻が変更されました。",
    "状況把握のための一般通知", .Low),
   ("セキュリティ警告", "未確認のログイン試行を検出しました。",
    "アカウント保護のため早め対応", .High)]

/-- Simulated elapsed-time offsets of the dummy injector, from
orchestrator.rs OFFSETS. -/
def dummyOffsets : List Int := [30, 180, 600, 1800, 3600, 7200, 43200, 86400]

/-- Starting point of the synthetic id sequence: the minimum negative id
already in the store, 0 when there is none, from the next_virtual_id
initialisation in orchestrator.rs inject_dummy_notifications. -/
def dummy_next_virtual_id (st : NotifyOrchestrator) : Int :=
  ((st.collected.map (fun n => n.id)).filter (fun i => decide (i < 0))).min?.getD 0

/-- The i-th entry pushed by the injection loop of orchestrator.rs
inject_dummy_notifications: the virtual id has been decremented i+1
times from its starting point and the tables rotate by index. -/
def dummy_entry (base : Int) (now : Int) (i : Nat) : AnalyzedNotification :=
  let app := dummyApps.getD (i % dummyApps.length) ("", "")
  let sample := dummySamples.getD (i % dummySamples.length)
    ("", "", "", UrgencyLevel.Low)
  let offset := dummyOffsets.getD (i % dummyOffsets.length) 0
  { id := base - ((i : Int) + 1), title := sample.1, body := sample.2.1,
    subtitle := "Dummy", bundle_id := app.1, app_name := app.2,
    urgency := sample.2.2.2, summary_line := sample.1,
    reason := sample.2.2.1, timestamp := now - offset }

/-- Synthetic store injection, from orchestrator.rs
NotifyOrchestrator::inject_dummy_notifications: ids start below the
smallest negative id already present (0 when none) and decrease by one
per entry; the wall clock enters as the explicit now input. -/
def inject_dummy_notifications (st : NotifyOrchestrator) (now : Int)
    (count : Nat) : NotifyOrchestrator × Nat :=
  ({ st with collected := st.collected ++
      (List.range count).map (dummy_entry (dummy_next_virtual_id st) now) },
   count)

/-- Command-surface wrapper, from commands.rs inject_dummy_notifications:
the optional requested count defaults to 8 and is clamped to
1..=MAX_DUMMY_INSERT_COUNT before injection. -/
def inject_dummy_notifications_command (count : Option Nat)
    (st : NotifyOrchestrator) (now : Int) : NotifyOrchestrator × Nat :=
  let insert_count := min (max (count.getD 8) 1) MAX_DUMMY_INSERT_COUNT
  inject_dummy_notifications st now insert_count

/-- External inputs consumed by one polling cycle: the focus-file read,
the DB read, and the LLM backend behaviour per record. -/
structure CycleInput where
  focusRead : Except Unit String
  readResult : Except Unit (List Notification)
  outcomeOf : Notification → LlmOutcome

/-- Observable outputs of one polling cycle. -/
structure CycleOutput where
  pending : List (Notification × Option String)
  focus_ended : Bool
  results : List AnalyzedNotification
  criticals : List AnalyzedNotification
  focusEndedCount : Option Nat

/-- Modelled from the spec: the per-cycle driver loop that composes the
phase operations is part of the repository's process wiring, which is not
under src; section 4.6 of the specification fixes the order
ReadAndDetect, Classify, Merge, then the mode-ended side effect when the
flag was set. The phase operations themselves are the orchestrator.rs
functions above. -/
def runCycle (jsonOf : String → Option Json) (st : NotifyOrchestrator)
    (c : CycleInput) : NotifyOrchestrator × CycleOutput :=
  let step1 := poll_read_new jsonOf st c.focusRead c.readResult
  let batch := analyze_notifications_batch jsonOf c.outcomeOf step1.2.pending
  let st2 := (poll_store_results step1.1 batch.1).1
  let cnt :=
    if step1.2.focus_ended then some (on_focus_ended_count st2) else none
  (st2, { pending := step1.2.pending, focus_ended := step1.2.focus_ended,
          results := batch.1, criticals := batch.2,
          focusEndedCount := cnt })

/-- State trace of a run: the initial state followed by the state after
each successive cycle. -/
def cycleStates (jsonOf : String → Option Json) :
    NotifyOrchestrator → List CycleInput → List NotifyOrchestrator
  | st, [] => [st]
  | st, c :: cs => st :: cycleStates jsonOf (runCycle jsonOf st c).1 cs

/-- The rowids presented to the Classify phase over a run, in
presentation order. -/
def allPendingRowids (jsonOf : String → Option Json) :
    NotifyOrchestrator → List CycleInput → List Int
  | _, [] => []
  | st, c :: cs =>
    ((runCycle jsonOf st c).2.pending.map (fun p => p.1.rowid)) ++
      allPendingRowids jsonOf (runCycle jsonOf st c).1 cs

/-- Contract of SourceReader.readNew against the cursor: a successful
read returns records strictly ascending by rowid, all strictly newer
than the cursor (the SQL is WHERE rowid greater-than cursor ORDER BY
rowid on a key column, db.rs read_new). A failed read promises
nothing. -/
def ReadOk (since : Int) : Except Unit (List Notification) → Prop
  | .ok l => List.Pairwise (fun a b => a.rowid < b.rowid) l ∧ ∀ n ∈ l, since < n.rowid
  | .error _ => True

/-- A run whose every successful DB read honours the reader contract
relative to the cursor at the time of that read. -/
def ValidRun (jsonOf : String → Option Json) :
    NotifyOrchestrator → List CycleInput → Prop
  | _, [] => True
  | st, c :: cs =>
    ReadOk st.last_rowid c.readResult ∧
      ValidRun jsonOf (runCycle jsonOf st c).1 cs

instance : IsTotal UiNotification newerFirst :=
  ⟨fun a b => le_total b.timestamp a.timestamp⟩

instance : IsTrans UiNotification newerFirst :=
  ⟨fun _ _ _ h1 h2 => le_trans h2 h1⟩

instance : IsTotal UiNotificationGroup groupNewerFirst :=
  ⟨fun a b => le_total (groupTs b) (groupTs a)⟩

instance : IsTrans UiNotificationGroup groupNewerFirst :=
  ⟨fun _ _ _ h1 h2 => le_trans h2 h1⟩

instance : ∀ (since : Int) (r : Except Unit (List Notification)),
    Decidable (ReadOk since r)
  | _, .ok _ => inferInstanceAs (Decidable (_ ∧ _))
  | _, .error _ => inferInstanceAs (Decidable True)

instance ValidRun.instDecidable (jsonOf : String → Option Json) :
    ∀ (st : NotifyOrchestrator) (cs : List CycleInput),
      Decidable (ValidRun jsonOf st cs)
  | _, [] => .isTrue trivial
  | st, c :: cs =>
    haveI := ValidRun.instDecidable jsonOf (runCycle jsonOf st c).1 cs
    inferInstanceAs (Decidable (_ ∧ _))

/-- Statement of the C5 claim sentence, written from the specification
words for the refinement comparison: the first non-empty of the trimmed
title, body, subtitle (else the fixed placeholder). -/
def chosen_summary_source (n : Notification) : String :=
  ((([n.title, n.body, n.subtitle].map rustTrim).filter
    (fun s => !s.isEmpty)).head?).getD "内容不明の通知"

/-- A notification whose title has 100 characters, for the C5 scenario. -/
def c5_long_notification : Notification :=
  { rowid := 7, title := String.mk (List.replicate 100 'a'), body := "",
    subtitle := "", bundle_id := "com.app.mail", timestamp := 0 }

/-- The notification under classification in the C6 scenario. -/
def c6_notification : Notification :=
  { rowid := 9, title := "t", body := "b", subtitle := "s",
    bundle_id := "com.app.mail", timestamp := 0 }

/-- The classifier response of the C6 scenario: the expected object
surrounded by prose noise. -/
def c6_response_text : String :=
  "noise \x7b\"urgency_level\":\"critical\",\"summary_line\":\"x\",\"reason\":\"y\"\x7d trailing"

/-- The bare object slice of the C6 scenario. -/
def c6_core_text : String :=
  "\x7b\"urgency_level\":\"critical\",\"summary_line\":\"x\",\"reason\":\"y\"\x7d"

/-- A stored entry of the C9 scenario. -/
def c9_entry (id : Int) (bundle : String) (title : String)
    (u : UrgencyLevel) (ts : Int) : AnalyzedNotification :=
  { id := id, title := title, body := "", subtitle := "",
    bundle_id := bundle, app_name := app_name_from_bundle bundle,
    urgency := u, summary_line := title, reason := "r", timestamp := ts }

/-- The C9 scenario store: two notifications for com.app.mail (decoded
title Invoice, tier High) and one for com.app.chat (tier Low). -/
def c9_store : NotifyOrchestrator :=
  { app_prompts := [], ignored_apps := [], last_rowid := 0,
    collected :=
      [c9_entry 1 "com.app.mail" "Invoice" .High 100,
       c9_entry 2 "com.app.mail" "Invoice" .High 200,
       c9_entry 3 "com.app.chat" "hello" .Low 150],
    was_focused := false }

/-- A small concrete record for witness runs. -/
def wNote (i : Int) : Notification :=
  { rowid := i, title := "title", body := "body", subtitle := "",
    bundle_id := "com.x.y", timestamp := i }

/-- A focus assertions document with one truthy assertion record. -/
def focusActiveText : String :=
  "\x7b\"data\":[\x7b\"storeAssertionRecords\":true\x7d]\x7d"

/-- Empty witness state. -/
def wStateEmpty : NotifyOrchestrator :=
  { app_prompts := [], ignored_apps := [], last_rowid := 0,
    collected := [], was_focused := false }

/-- Witness state holding three classified notifications while focus was
active in the previous cycle. -/
def wStateThree : NotifyOrchestrator :=
  { app_prompts := [], ignored_apps := [], last_rowid := 10,
    collected :=
      [c9_entry 1 "a.b" "x" .Low 1, c9_entry 2 "a.b" "y" .Low 2,
       c9_entry 3 "a.c" "z" .Low 3],
    was_focused := true }

/-- Witness state holding one synthetic entry with a negative id. -/
def wStateNeg : NotifyOrchestrator :=
  { app_prompts := [], ignored_apps := [], last_rowid := 0,
    collected := [c9_entry (-5) "a.b" "x" .Low 1],
    was_focused := false }

/-- Witness cycle: focus active, two new records, backend unreachable. -/
def wCycleA : CycleInput :=
  { focusRead := .ok focusActiveText,
    readResult := .ok [wNote 1, wNote 2],
    outcomeOf := fun _ => .unavailable }

/-- Witness cycle: focus active, one newer record, backend call fails. -/
def wCycleB : CycleInput :=
  { focusRead := .ok focusActiveText,
    readResult := .ok [wNote 3],
    outcomeOf := fun _ => .requestFailed }

/-- Witness cycle: both the focus read and the DB read fail. -/
def wCycleErr : CycleInput :=
  { focusRead := .error (),
    readResult := .error (),
    outcomeOf := fun _ => .unavailable }

/-- Witness cycle: focus inactive (unreadable focus file) while one new
record arrives. -/
def wCycleInactive : CycleInput :=
  { focusRead := .error (),
    readResult := .ok [wNote 1],
    outcomeOf := fun _ => .unavailable }

/-- Witness cycle: focus active, records 2 and 3 arrive. -/
def wCycleAfter : CycleInput :=
  { focusRead := .ok focusActiveText,
    readResult := .ok [wNote 2, wNote 3],
    outcomeOf := fun _ => .requestFailed }
lemma chosen_summary_source_eq (n : Notification) :
    chosen_summary_source n =
      (if !(rustTrim n.title).isEmpty then rustTrim n.title
       else if !(rustTrim n.body).isEmpty then rustTrim n.body
       else if !(rustTrim n.subtitle).isEmpty then rustTrim n.subtitle
       else "内容不明の通知") := by
  unfold chosen_summary_source
  rcases h1 : (rustTrim n.title).isEmpty <;>
    rcases h2 : (rustTrim n.body).isEmpty <;>
    rcases h3 : (rustTrim n.subtitle).isEmpty <;>
      simp [h1, h2, h3]

lemma default_summary_line_eq_trunc (n : Notification) :
    default_summary_line n =
      (if (chosen_summary_source n).length > 60 then
        (String.mk ((chosen_summary_source n).toList.take 60)).push '…'
      else String.mk ((chosen_summary_source n).toList.take 60)) := by
  rw [chosen_summary_source_eq]
  unfold default_summary_line
  rfl

lemma str_isEmpty_false_iff (s : String) : s.isEmpty = false ↔ s ≠ "" := by
  rw [Bool.eq_false_iff]
  exact not_congr (String.isEmpty_iff s)

lemma str_mk_eq_empty_iff (l : List Char) : String.mk l = "" ↔ l = [] := by
  rw [String.ext_iff]

lemma chosen_summary_source_ne_empty (n : Notification) :
    chosen_summary_source n ≠ "" := by
  rw [chosen_summary_source_eq]
  split_ifs with h1 h2 h3 <;>
    simp_all [str_isEmpty_false_iff]

lemma toList_ne_nil_of_ne_empty (s : String) (h : s ≠ "") : s.toList ≠ [] := by
  intro hc
  exact h (by rw [String.ext_iff]; simpa using hc)

lemma default_summary_line_ne_empty (n : Notification) :
    default_summary_line n ≠ "" := by
  rw [default_summary_line_eq_trunc]
  have h := chosen_summary_source_ne_empty n
  have htl : (chosen_summary_source n).toList ≠ [] := by
    intro hc
    exact h (by rw [String.ext_iff]; simpa using hc)
  split_ifs with hlen
  · simp [String.push, String.ext_iff]
  · rw [ne_eq, str_mk_eq_empty_iff, List.take_eq_nil_iff]
    push_neg
    exact ⟨by omega, htl⟩

lemma getD_filter_nonempty (o : Option String) (d : String) (hd : d ≠ "") :
    (o.filter (fun v => !v.isEmpty)).getD d ≠ "" := by
  cases o with
  | none => simpa [Option.filter]
  | some v =>
    by_cases hv : v.isEmpty
    · simpa [Option.filter, hv]
    · have hb : v.isEmpty = false := by simpa using hv
      simp [Option.filter, hb, (str_isEmpty_false_iff v).mp hb]

lemma parse_summary_ne_empty (jsonOf : String → Option Json) (t : String)
    (n : Notification) (a : NotificationAnalysis)
    (h : parse_analysis_response jsonOf t n = some a) :
    a.summary_line ≠ "" := by
  unfold parse_analysis_response at h
  simp only [] at h
  split at h
  case _ start revstop heq1 heq2 =>
    split at h
    · exact absurd h (by simp)
    · split at h
      · exact absurd h (by simp)
      · split at h
        · exact absurd h (by simp)
        · rename_i parsed hparse urgency hu
          rw [Option.some_inj] at h
          subst h
          exact getD_filter_nonempty _ _ (default_summary_line_ne_empty n)
  case _ => exact absurd h (by simp)

lemma urgency_cases (u : UrgencyLevel) :
    u = .Critical ∨ u = .High ∨ u = .Medium ∨ u = .Low := by
  cases u <;> simp

lemma default_summary_line_length_le (n : Notification) :
    (default_summary_line n).length ≤ 61 := by
  rw [default_summary_line_eq_trunc]
  split_ifs with hlen
  · rw [String.length_push, String.length_mk, List.length_take]
    omega
  · rw [String.length_mk, List.length_take]
    omega

lemma default_summary_line_of_short (n : Notification)
    (h : (chosen_summary_source n).length ≤ 60) :
    default_summary_line n = chosen_summary_source n := by
  rw [default_summary_line_eq_trunc, if_neg (by omega)]
  rw [List.take_of_length_le (by exact h)]
  rfl

lemma default_summary_line_length_of_long (n : Notification)
    (h : 60 < (chosen_summary_source n).length) :
    (default_summary_line n).length = 61 := by
  rw [default_summary_line_eq_trunc, if_pos (by omega)]
  rw [String.length_push, String.length_mk, List.length_take]
  have : (chosen_summary_source n).toList.length = (chosen_summary_source n).length := rfl
  omega

/-- C5 counterexample: a classification produced by the fallback path for
a 100-character title has a 61-character summary line, exceeding 60. -/
theorem c5_counterexample :
    60 < (fallback_analysis c5_long_notification).summary_line.length := by
  decide

/-- C5 (amended): the locally computed default summary line equals the
first non-empty of the trimmed title/body/subtitle (or the fixed
placeholder) truncated to its first 60 characters with an ellipsis
appended when longer, so it has at most 61 characters (exactly 61 when
truncation occurred, including the ellipsis marker); fallback
classifications carry exactly this default line. -/
theorem c5_default_summary_truncation (n : Notification) :
    default_summary_line n =
      (if (chosen_summary_source n).length > 60 then
        (String.mk ((chosen_summary_source n).toList.take 60)).push '…'
      else chosen_summary_source n)
    ∧ (default_summary_line n).length ≤ 61
    ∧ (fallback_analysis n).summary_line = default_summary_line n
    ∧ ((chosen_summary_source n).length ≤ 60 →
        default_summary_line n = chosen_summary_source n)
    ∧ (60 < (chosen_summary_source n).length →
        (default_summary_line n).length = 61) := by
  refine ⟨?_, default_summary_line_length_le n, rfl,
    default_summary_line_of_short n, default_summary_line_length_of_long n⟩
  rw [default_summary_line_eq_trunc]
  split_ifs with hlen
  · rfl
  · have hl : (chosen_summary_source n).toList.length = (chosen_summary_source n).length := rfl
    rw [List.take_of_length_le (by omega)]
    rfl

/-- C5 witness: at a concrete short notification the default summary line
equals the chosen source text untruncated. -/
theorem c5_witness :
    default_summary_line c6_notification = chosen_summary_source c6_notification :=
  (c5_default_summary_truncation c6_notification).2.2.2.1 (by decide)

/-- C2: classification always yields a usable result: the tier is one of
the four defined values and the summary line is non-empty for every
backend behaviour; an unreachable backend yields tier Medium with the
local default summary, and a failed call or fully unparseable response
yields the deterministic fallback, also tier Medium with the local
default summary. -/
theorem c2_classification_total
    (jsonOf : String → Option Json) (outcome : LlmOutcome)
    (n : Notification) (ctx : Option String) :
    ((analyze_single jsonOf outcome n ctx).urgency = .Critical ∨
      (analyze_single jsonOf outcome n ctx).urgency = .High ∨
      (analyze_single jsonOf outcome n ctx).urgency = .Medium ∨
      (analyze_single jsonOf outcome n ctx).urgency = .Low)
    ∧ (analyze_single jsonOf outcome n ctx).summary_line ≠ ""
    ∧ (outcome = .unavailable →
        (analyze_single jsonOf outcome n ctx).urgency = .Medium ∧
        (analyze_single jsonOf outcome n ctx).summary_line = default_summary_line n)
    ∧ (outcome = .requestFailed →
        analyze_single jsonOf outcome n ctx = fallback_analysis n ∧
        (analyze_single jsonOf outcome n ctx).urgency = .Medium ∧
        (analyze_single jsonOf outcome n ctx).summary_line = default_summary_line n)
    ∧ (∀ t, outcome = .response t → parse_analysis_response jsonOf t n = none →
        analyze_single jsonOf outcome n ctx = fallback_analysis n ∧
        (analyze_single jsonOf outcome n ctx).urgency = .Medium ∧
        (analyze_single jsonOf outcome n ctx).summary_line = default_summary_line n) := by
  refine ⟨urgency_cases _, ?_, ?_, ?_, ?_⟩
  · cases outcome with
    | unavailable => exact default_summary_line_ne_empty n
    | requestFailed => exact default_summary_line_ne_empty n
    | response t =>
      cases hp : parse_analysis_response jsonOf t n with
      | none => simpa [analyze_single, hp] using default_summary_line_ne_empty n
      | some a => simpa [analyze_single, hp] using parse_summary_ne_empty jsonOf t n a hp
  · rintro rfl
    exact ⟨rfl, rfl⟩
  · rintro rfl
    exact ⟨rfl, rfl, rfl⟩
  · rintro t rfl hp
    simp [analyze_single, hp, fallback_analysis]

/-- C2 witness: with the backend unreachable, the concrete notification
is classified Medium with its local default summary. -/
theorem c2_witness :
    (analyze_single (fun _ => none) LlmOutcome.unavailable c6_notification none).urgency =
        UrgencyLevel.Medium ∧
      (analyze_single (fun _ => none) LlmOutcome.unavailable c6_notification none).summary_line =
        default_summary_line c6_notification :=
  (c2_classification_total (fun _ => none) LlmOutcome.unavailable c6_notification none).2.2.1 rfl

/-- C6: the classifier response of the scenario, with prose noise before
the first opening brace and after the last closing brace, parses to tier
Critical with summary x and reason y, and parses identically to the bare
object slice between those braces. -/
theorem c6_parse_first_last_brace :
    parse_analysis_response Json.parseDoc c6_response_text c6_notification =
      some { urgency := .Critical, summary_line := "x", reason := "y" }
    ∧ parse_analysis_response Json.parseDoc c6_response_text c6_notification =
      parse_analysis_response Json.parseDoc c6_core_text c6_notification :=
  ⟨by decide, by decide⟩

lemma assertionTruthy_iff (v : Json) :
    assertionTruthy v = true ↔ v ≠ Json.null ∧ v ≠ Json.bool false := by
  cases v with
  | bool b => cases b <;> simp [assertionTruthy]
  | _ => simp [assertionTruthy]

lemma focus_record_iff (rec : Json) :
    (match (rec.asObj).map (fun members => members.lookup "storeAssertionRecords") with
      | some (some v) => assertionTruthy v
      | _ => false) = true ↔
    ∃ members v, rec = Json.obj members ∧
      members.lookup "storeAssertionRecords" = some v ∧
      v ≠ Json.null ∧ v ≠ Json.bool false := by
  cases rec with
  | obj members =>
    cases h : members.lookup "storeAssertionRecords" with
    | none => simp [Json.asObj, h]
    | some v => simp [Json.asObj, h, assertionTruthy_iff]
  | _ => simp [Json.asObj]

lemma is_focus_active_iff (data : Json) :
    is_focus_active data = true ↔
    ∃ records, (data.getKey "data").bind Json.asArr = some records ∧
      ∃ rec ∈ records, ∃ members v, rec = Json.obj members ∧
        members.lookup "storeAssertionRecords" = some v ∧
        v ≠ Json.null ∧ v ≠ Json.bool false := by
  cases hb : (data.getKey "data").bind Json.asArr with
  | none => simp [is_focus_active, hb]
  | some records =>
    simp only [is_focus_active, hb, Option.map_some', Option.getD_some,
      Option.some_inj, List.any_eq_true]
    constructor
    · rintro ⟨rec, hrec, hpred⟩
      exact ⟨records, rfl, rec, hrec, (focus_record_iff rec).mp hpred⟩
    · rintro ⟨records', hreq, rec, hrec, hex⟩
      subst hreq
      exact ⟨rec, hrec, (focus_record_iff rec).mpr hex⟩

/-- C7: the detector reports Active precisely when the state document was
read and parsed and some element of its records array carries an
assertion field that is neither null nor false; every read failure and
every parse failure yields Inactive. -/
theorem c7_mode_detection (jsonOf : String → Option Json) (r : Except Unit String) :
    (get_state jsonOf r = FocusState.Active ↔
      ∃ text data, r = Except.ok text ∧ jsonOf text = some data ∧
        is_focus_active data = true)
    ∧ (r = Except.error () → get_state jsonOf r = FocusState.Inactive)
    ∧ (∀ text, r = Except.ok text → jsonOf text = none →
        get_state jsonOf r = FocusState.Inactive)
    ∧ (∀ data, is_focus_active data = true ↔
        ∃ records, (data.getKey "data").bind Json.asArr = some records ∧
          ∃ rec ∈ records, ∃ members v, rec = Json.obj members ∧
            members.lookup "storeAssertionRecords" = some v ∧
            v ≠ Json.null ∧ v ≠ Json.bool false) := by
  refine ⟨?_, ?_, ?_, fun data => is_focus_active_iff data⟩
  · cases r with
    | error e => simp [get_state]
    | ok text =>
      cases hj : jsonOf text with
      | none => simp [get_state, hj]
      | some data =>
        by_cases hf : is_focus_active data <;>
          simp [get_state, hj, hf]
  · rintro rfl
    rfl
  · rintro text rfl hj
    simp [get_state, hj]

/-- C7 witness: an unreadable state document yields Inactive, and the
concrete truthy assertions document yields Active. -/
theorem c7_witness :
    get_state Json.parseDoc (Except.error ()) = FocusState.Inactive :=
  (c7_mode_detection Json.parseDoc (Except.error ())).2.1 rfl

/-- C9 counterexample: for the scenario store with two tier-High mail
notifications and one tier-Low chat notification, the per-tier counts are
not the claimed [0,1,0,1] (the counts of a 3-element store sum to 3). -/
theorem c9_counterexample : urgency_counts c9_store ≠ [0, 1, 0, 1] := by
  decide

/-- C9 (amended): for the scenario store, groupedView returns exactly two
groups, the com.app.mail group holding its 2 entries, and the per-tier
counts are [0,2,0,1] — both High mail notifications are counted, so the
counts sum to the store size 3. -/
theorem c9_two_groups_and_counts :
    ((notification_groups c9_store).map
      (fun g => (g.bundle_id, g.notifications.length))) =
      [("com.app.mail", 2), ("com.app.chat", 1)]
    ∧ urgency_counts c9_store = [0, 2, 0, 1]
    ∧ (urgency_counts c9_store).sum = c9_store.collected.length :=
  ⟨by decide, by decide, by decide⟩

lemma int_min?_mem {l : List Int} {a : Int} (h : l.min? = some a) : a ∈ l :=
  List.min?_mem (fun a b => by
    rcases le_total a b with h' | h' <;> simp [min_def, h']) h

lemma int_min?_le {l : List Int} {a b : Int} (h : l.min? = some a)
    (hb : b ∈ l) : a ≤ b :=
  ((List.le_min?_iff (fun _ _ _ => le_min_iff) h (x := a)).mp le_rfl) b hb

lemma dummy_next_virtual_id_nonpos (st : NotifyOrchestrator) :
    dummy_next_virtual_id st ≤ 0 := by
  unfold dummy_next_virtual_id
  cases h : ((st.collected.map (fun n => n.id)).filter
      (fun i => decide (i < 0))).min? with
  | none => simp
  | some v =>
    have hv := int_min?_mem h
    rw [List.mem_filter] at hv
    simp only [Option.getD_some]
    have : v < 0 := by simpa using hv.2
    omega

lemma dummy_next_virtual_id_le (st : NotifyOrchestrator)
    (b : AnalyzedNotification) (hb : b ∈ st.collected) (hneg : b.id < 0) :
    dummy_next_virtual_id st ≤ b.id := by
  unfold dummy_next_virtual_id
  have hmem : b.id ∈ (st.collected.map (fun n => n.id)).filter
      (fun i => decide (i < 0)) := by
    rw [List.mem_filter]
    exact ⟨List.mem_map_of_mem _ hb, by simpa using hneg⟩
  cases h : ((st.collected.map (fun n => n.id)).filter
      (fun i => decide (i < 0))).min? with
  | none =>
    rw [List.min?_eq_none_iff] at h
    rw [h] at hmem
    cases hmem
  | some v =>
    simpa using int_min?_le h hmem

lemma inject_entries_eq (st : NotifyOrchestrator) (now : Int) (n : Nat) :
    (inject_dummy_notifications st now n).1.collected.drop st.collected.length =
      (List.range n).map (dummy_entry (dummy_next_virtual_id st) now) := by
  unfold inject_dummy_notifications
  exact List.drop_left _ _

/-- C10: the dummy-injection command clamps the requested count into
1..=30 (8 when absent), inserts exactly that many synthetic entries, each
with a negative id strictly below every negative id already stored and
pairwise strictly decreasing (so synthetic ids collide neither with
positive source ids nor with each other), and returns the clamped
count. -/
theorem c10_inject_dummy_clamped
    (count : Option Nat) (st : NotifyOrchestrator) (now : Int) :
    (inject_dummy_notifications_command count st now).2 =
      min (max (count.getD 8) 1) MAX_DUMMY_INSERT_COUNT
    ∧ 1 ≤ (inject_dummy_notifications_command count st now).2
    ∧ (inject_dummy_notifications_command count st now).2 ≤ 30
    ∧ (count = none → (inject_dummy_notifications_command count st now).2 = 8)
    ∧ (inject_dummy_notifications_command count st now).1.collected.length =
        st.collected.length + (inject_dummy_notifications_command count st now).2
    ∧ (∀ a ∈ (inject_dummy_notifications_command count st now).1.collected.drop
          st.collected.length,
        a.id < 0 ∧ ∀ b ∈ st.collected, b.id < 0 → a.id < b.id)
    ∧ List.Pairwise (fun a b => b.id < a.id)
        ((inject_dummy_notifications_command count st now).1.collected.drop
          st.collected.length) := by
  have hm0 := dummy_next_virtual_id_nonpos st
  unfold inject_dummy_notifications_command
  refine ⟨rfl, ?_, ?_, ?_, ?_, ?_, ?_⟩
  · simp only [inject_dummy_notifications, MAX_DUMMY_INSERT_COUNT]
    omega
  · simp [inject_dummy_notifications, MAX_DUMMY_INSERT_COUNT]
  · rintro rfl
    simp [inject_dummy_notifications, MAX_DUMMY_INSERT_COUNT]
  · simp [inject_dummy_notifications]
  · rw [inject_entries_eq]
    rintro a ha
    rw [List.mem_map] at ha
    obtain ⟨i, _, rfl⟩ := ha
    refine ⟨?_, ?_⟩
    · show dummy_next_virtual_id st - ((i : Int) + 1) < 0
      omega
    · intro b hb hbneg
      have := dummy_next_virtual_id_le st b hb hbneg
      show dummy_next_virtual_id st - ((i : Int) + 1) < b.id
      omega
  · rw [inject_entries_eq]
    rw [List.pairwise_map]
    refine (List.pairwise_lt_range _).imp ?_
    intro i j hij
    show (dummy_entry _ _ j).id < (dummy_entry _ _ i).id
    show dummy_next_virtual_id st - ((j : Int) + 1) <
      dummy_next_virtual_id st - ((i : Int) + 1)
    omega

/-- C10 witness: requesting 0 on a store holding id -5 clamps to one
inserted entry whose id is below -5. -/
theorem c10_witness :
    (inject_dummy_notifications_command (some 0) wStateNeg 1000).2 = 1 ∧
      ∀ a ∈ (inject_dummy_notifications_command (some 0) wStateNeg
          1000).1.collected.drop wStateNeg.collected.length,
        a.id < 0 := by
  have h := c10_inject_dummy_clamped (some 0) wStateNeg 1000
  refine ⟨h.1.trans (by decide), fun a ha => (h.2.2.2.2.2.1 a ha).1⟩

lemma poll_store_results_collected (st : NotifyOrchestrator)
    (rs : List AnalyzedNotification) :
    (poll_store_results st rs).1.collected = st.collected ++ rs := by
  unfold poll_store_results
  split
  · simp_all
  · rfl

lemma poll_store_results_last_rowid (st : NotifyOrchestrator)
    (rs : List AnalyzedNotification) :
    (poll_store_results st rs).1.last_rowid = st.last_rowid := by
  unfold poll_store_results
  split <;> rfl

lemma poll_store_results_was_focused (st : NotifyOrchestrator)
    (rs : List AnalyzedNotification) :
    (poll_store_results st rs).1.was_focused = st.was_focused := by
  unfold poll_store_results
  split <;> rfl

lemma poll_read_new_error (jsonOf : String → Option Json)
    (st : NotifyOrchestrator) (fr : Except Unit String) (e : Unit) :
    (poll_read_new jsonOf st fr (Except.error e)).1.last_rowid = st.last_rowid ∧
    (poll_read_new jsonOf st fr (Except.error e)).2.pending = [] :=
  ⟨rfl, rfl⟩

lemma poll_read_new_ok_last_rowid (jsonOf : String → Option Json)
    (st : NotifyOrchestrator) (fr : Except Unit String) (l : List Notification) :
    (poll_read_new jsonOf st fr (Except.ok l)).1.last_rowid =
      (match l.getLast? with
        | some last => last.rowid
        | none => st.last_rowid) := rfl

lemma poll_read_new_ok_pending (jsonOf : String → Option Json)
    (st : NotifyOrchestrator) (fr : Except Unit String) (l : List Notification) :
    (poll_read_new jsonOf st fr (Except.ok l)).2.pending =
      (if decide (get_state jsonOf fr = FocusState.Active) then
        (l.filter (fun n => !st.ignored_apps.contains n.bundle_id)).map
          (fun n => (n, st.app_prompts.lookup n.bundle_id))
      else []) := rfl

lemma poll_read_new_collected (jsonOf : String → Option Json)
    (st : NotifyOrchestrator) (fr : Except Unit String)
    (r : Except Unit (List Notification)) :
    (poll_read_new jsonOf st fr r).1.collected = st.collected := by
  cases r <;> rfl

lemma poll_read_new_was_focused (jsonOf : String → Option Json)
    (st : NotifyOrchestrator) (fr : Except Unit String)
    (r : Except Unit (List Notification)) :
    (poll_read_new jsonOf st fr r).1.was_focused =
      decide (get_state jsonOf fr = FocusState.Active) := by
  cases r <;> rfl

lemma poll_read_new_focus_ended (jsonOf : String → Option Json)
    (st : NotifyOrchestrator) (fr : Except Unit String)
    (r : Except Unit (List Notification)) :
    (poll_read_new jsonOf st fr r).2.focus_ended =
      (!decide (get_state jsonOf fr = FocusState.Active) &&
        st.was_focused && !st.collected.isEmpty) := by
  cases r <;> rfl

lemma batch_results_ids (jsonOf : String → Option Json)
    (oc : Notification → LlmOutcome)
    (pending : List (Notification × Option String)) :
    ((analyze_notifications_batch jsonOf oc pending).1).map (fun a => a.id) =
      pending.map (fun p => p.1.rowid) := by
  unfold analyze_notifications_batch
  simp [List.map_map]

lemma runCycle_proj (jsonOf : String → Option Json)
    (st : NotifyOrchestrator) (c : CycleInput) :
    (runCycle jsonOf st c).2.pending =
      (poll_read_new jsonOf st c.focusRead c.readResult).2.pending ∧
    (runCycle jsonOf st c).2.results =
      (analyze_notifications_batch jsonOf c.outcomeOf
        (poll_read_new jsonOf st c.focusRead c.readResult).2.pending).1 ∧
    (runCycle jsonOf st c).1 =
      (poll_store_results (poll_read_new jsonOf st c.focusRead c.readResult).1
        (analyze_notifications_batch jsonOf c.outcomeOf
          (poll_read_new jsonOf st c.focusRead c.readResult).2.pending).1).1 :=
  ⟨rfl, rfl, rfl⟩

lemma runCycle_collected (jsonOf : String → Option Json)
    (st : NotifyOrchestrator) (c : CycleInput) :
    (runCycle jsonOf st c).1.collected =
      st.collected ++ (runCycle jsonOf st c).2.results := by
  rw [(runCycle_proj jsonOf st c).2.2, poll_store_results_collected,
    poll_read_new_collected, (runCycle_proj jsonOf st c).2.1]

lemma runCycle_last_rowid (jsonOf : String → Option Json)
    (st : NotifyOrchestrator) (c : CycleInput) :
    (runCycle jsonOf st c).1.last_rowid =
      (poll_read_new jsonOf st c.focusRead c.readResult).1.last_rowid := by
  rw [(runCycle_proj jsonOf st c).2.2, poll_store_results_last_rowid]

lemma runCycle_was_focused (jsonOf : String → Option Json)
    (st : NotifyOrchestrator) (c : CycleInput) :
    (runCycle jsonOf st c).1.was_focused =
      decide (get_state jsonOf c.focusRead = FocusState.Active) := by
  rw [(runCycle_proj jsonOf st c).2.2, poll_store_results_was_focused,
    poll_read_new_was_focused]

lemma pairwise_rowid_le_getLast :
    ∀ (l : List Notification),
      List.Pairwise (fun a b => a.rowid < b.rowid) l →
      ∀ x, l.getLast? = some x → ∀ n ∈ l, n.rowid ≤ x.rowid := by
  intro l
  induction l with
  | nil => simp
  | cons a t ih =>
    intro hp x hl n hn
    cases t with
    | nil =>
      simp only [List.getLast?_singleton, Option.some_inj] at hl
      simp only [List.mem_singleton] at hn
      subst hl
      subst hn
      exact le_refl _
    | cons b t' =>
      rw [List.getLast?_cons_cons] at hl
      rcases List.mem_cons.mp hn with rfl | hmem
      · have hx : x ∈ b :: t' := List.mem_of_mem_getLast? hl
        exact le_of_lt ((List.pairwise_cons.mp hp).1 x hx)
      · exact ih (List.pairwise_cons.mp hp).2 x hl n hmem

lemma step_cursor_lower (jsonOf : String → Option Json)
    (st : NotifyOrchestrator) (c : CycleInput)
    (h : ReadOk st.last_rowid c.readResult) :
    st.last_rowid ≤ (runCycle jsonOf st c).1.last_rowid := by
  rw [runCycle_last_rowid]
  cases hr : c.readResult with
  | error e => rw [(poll_read_new_error jsonOf st c.focusRead e).1]
  | ok l =>
    rw [poll_read_new_ok_last_rowid]
    cases hl : l.getLast? with
    | none => exact le_refl _
    | some x =>
      rw [hr] at h
      exact le_of_lt (h.2 x (List.mem_of_mem_getLast? hl))

lemma pending_mem_source (jsonOf : String → Option Json)
    (st : NotifyOrchestrator) (fr : Except Unit String) (l : List Notification)
    (p : Notification × Option String)
    (hp : p ∈ (poll_read_new jsonOf st fr (Except.ok l)).2.pending) :
    p.1 ∈ l := by
  rw [poll_read_new_ok_pending] at hp
  split at hp
  · rw [List.mem_map] at hp
    obtain ⟨n, hn, rfl⟩ := hp
    exact (List.mem_filter.mp hn).1
  · cases hp

lemma pending_gt_cursor (jsonOf : String → Option Json)
    (st : NotifyOrchestrator) (c : CycleInput)
    (h : ReadOk st.last_rowid c.readResult) :
    ∀ p ∈ (runCycle jsonOf st c).2.pending, st.last_rowid < p.1.rowid := by
  intro p hp
  rw [(runCycle_proj jsonOf st c).1] at hp
  cases hr : c.readResult with
  | error e =>
    rw [hr, (poll_read_new_error jsonOf st c.focusRead e).2] at hp
    cases hp
  | ok l =>
    rw [hr] at hp h
    exact h.2 p.1 (pending_mem_source jsonOf st c.focusRead l p hp)

lemma pending_le_new_cursor (jsonOf : String → Option Json)
    (st : NotifyOrchestrator) (c : CycleInput)
    (h : ReadOk st.last_rowid c.readResult) :
    ∀ p ∈ (runCycle jsonOf st c).2.pending,
      p.1.rowid ≤ (runCycle jsonOf st c).1.last_rowid := by
  intro p hp
  rw [(runCycle_proj jsonOf st c).1] at hp
  rw [runCycle_last_rowid]
  cases hr : c.readResult with
  | error e =>
    rw [hr, (poll_read_new_error jsonOf st c.focusRead e).2] at hp
    cases hp
  | ok l =>
    rw [hr] at hp h
    rw [poll_read_new_ok_last_rowid]
    have hmem := pending_mem_source jsonOf st c.focusRead l p hp
    cases hl : l.getLast? with
    | none =>
      rw [List.getLast?_eq_none_iff] at hl
      subst hl
      cases hmem
    | some x =>
      exact pairwise_rowid_le_getLast l h.1 x hl p.1 hmem

lemma pending_rowids_pairwise (jsonOf : String → Option Json)
    (st : NotifyOrchestrator) (c : CycleInput)
    (h : ReadOk st.last_rowid c.readResult) :
    List.Pairwise (· < ·)
      ((runCycle jsonOf st c).2.pending.map (fun p => p.1.rowid)) := by
  rw [(runCycle_proj jsonOf st c).1]
  cases hr : c.readResult with
  | error e =>
    rw [(poll_read_new_error jsonOf st c.focusRead e).2]
    simp
  | ok l =>
    rw [hr] at h
    rw [poll_read_new_ok_pending]
    split
    · rw [List.map_map]
      have hsub := List.filter_sublist
        (p := fun n => !st.ignored_apps.contains n.bundle_id) l
      have hpair := List.Pairwise.sublist hsub h.1
      rw [List.pairwise_map]
      exact hpair
    · simp

lemma valid_cursor_le_all (jsonOf : String → Option Json) :
    ∀ (cs : List CycleInput) (st : NotifyOrchestrator),
      ValidRun jsonOf st cs →
      ∀ s ∈ cycleStates jsonOf st cs, st.last_rowid ≤ s.last_rowid := by
  intro cs
  induction cs with
  | nil =>
    intro st _ s hs
    simp only [cycleStates, List.mem_singleton] at hs
    subst hs
    exact le_refl _
  | cons c cs ih =>
    intro st hv s hs
    simp only [cycleStates] at hs
    rcases List.mem_cons.mp hs with rfl | hmem
    · exact le_refl _
    · exact le_trans (step_cursor_lower jsonOf st c hv.1)
        (ih _ hv.2 s hmem)

lemma valid_trace_pairwise (jsonOf : String → Option Json) :
    ∀ (cs : List CycleInput) (st : NotifyOrchestrator),
      ValidRun jsonOf st cs →
      List.Pairwise (· ≤ ·)
        ((cycleStates jsonOf st cs).map (fun s => s.last_rowid)) := by
  intro cs
  induction cs with
  | nil =>
    intro st _
    simp [cycleStates]
  | cons c cs ih =>
    intro st hv
    simp only [cycleStates, List.map_cons, List.pairwise_cons]
    constructor
    · intro y hy
      rw [List.mem_map] at hy
      obtain ⟨s, hs, rfl⟩ := hy
      exact le_trans (step_cursor_lower jsonOf st c hv.1)
        (valid_cursor_le_all jsonOf cs _ hv.2 s hs)
    · exact ih _ hv.2

lemma allPending_gt_cursor (jsonOf : String → Option Json) :
    ∀ (cs : List CycleInput) (st : NotifyOrchestrator),
      ValidRun jsonOf st cs →
      ∀ x ∈ allPendingRowids jsonOf st cs, st.last_rowid < x := by
  intro cs
  induction cs with
  | nil =>
    intro st _ x hx
    cases hx
  | cons c cs ih =>
    intro st hv x hx
    simp only [allPendingRowids, List.mem_append] at hx
    rcases hx with hx | hx
    · rw [List.mem_map] at hx
      obtain ⟨p, hp, rfl⟩ := hx
      exact pending_gt_cursor jsonOf st c hv.1 p hp
    · exact lt_of_le_of_lt (step_cursor_lower jsonOf st c hv.1)
        (ih _ hv.2 x hx)

lemma allPending_pairwise (jsonOf : String → Option Json) :
    ∀ (cs : List CycleInput) (st : NotifyOrchestrator),
      ValidRun jsonOf st cs →
      List.Pairwise (· < ·) (allPendingRowids jsonOf st cs) := by
  intro cs
  induction cs with
  | nil =>
    intro st _
    exact List.Pairwise.nil
  | cons c cs ih =>
    intro st hv
    simp only [allPendingRowids]
    rw [List.pairwise_append]
    refine ⟨pending_rowids_pairwise jsonOf st c hv.1, ih _ hv.2, ?_⟩
    intro a ha b hb
    rw [List.mem_map] at ha
    obtain ⟨p, hp, rfl⟩ := ha
    exact lt_of_le_of_lt (pending_le_new_cursor jsonOf st c hv.1 p hp)
      (allPending_gt_cursor jsonOf cs _ hv.2 b hb)

/-- C1: over every valid run, the cursor trace is monotonically
non-decreasing; a failed read leaves the cursor unchanged; a successful
non-empty read advances it to the last returned rowid, which is the
maximum; and the rowids presented to the Classify phase over the whole
run are strictly increasing — each presented record is strictly newer
than the cursor at its read, so a record with rowid at most the cursor
is never presented, and no rowid is presented twice. -/
theorem c1_cursor_monotone_unique_presentation
    (jsonOf : String → Option Json) (st0 : NotifyOrchestrator)
    (cs : List CycleInput) (hvalid : ValidRun jsonOf st0 cs) :
    List.Pairwise (· ≤ ·)
      ((cycleStates jsonOf st0 cs).map (fun s => s.last_rowid))
    ∧ List.Pairwise (· < ·) (allPendingRowids jsonOf st0 cs)
    ∧ (∀ (st : NotifyOrchestrator) (fr : Except Unit String) (e : Unit),
        (poll_read_new jsonOf st fr (Except.error e)).1.last_rowid =
          st.last_rowid)
    ∧ (∀ (st : NotifyOrchestrator) (fr : Except Unit String)
        (l : List Notification) (x : Notification),
        ReadOk st.last_rowid (Except.ok l) → l.getLast? = some x →
        (poll_read_new jsonOf st fr (Except.ok l)).1.last_rowid = x.rowid ∧
        ∀ n ∈ l, n.rowid ≤ x.rowid)
    ∧ (∀ (st : NotifyOrchestrator) (c : CycleInput),
        ReadOk st.last_rowid c.readResult →
        ∀ p ∈ (runCycle jsonOf st c).2.pending,
          st.last_rowid < p.1.rowid) := by
  refine ⟨valid_trace_pairwise jsonOf cs st0 hvalid,
    allPending_pairwise jsonOf cs st0 hvalid,
    fun st fr e => (poll_read_new_error jsonOf st fr e).1,
    ?_,
    fun st c h => pending_gt_cursor jsonOf st c h⟩
  intro st fr l x h hl
  constructor
  · rw [poll_read_new_ok_last_rowid, hl]
  · exact pairwise_rowid_le_getLast l h.1 x hl

/-- C1 witness: on a concrete three-cycle valid run (two successful reads
while focus is active, then a failed read) the presented rowids are
strictly increasing and the cursor trace is non-decreasing. -/
theorem c1_witness :
    List.Pairwise (· ≤ ·)
      ((cycleStates Json.parseDoc wStateEmpty
        [wCycleA, wCycleB, wCycleErr]).map (fun s => s.last_rowid))
    ∧ List.Pairwise (· < ·)
      (allPendingRowids Json.parseDoc wStateEmpty
        [wCycleA, wCycleB, wCycleErr]) :=
  ⟨(c1_cursor_monotone_unique_presentation Json.parseDoc wStateEmpty
      [wCycleA, wCycleB, wCycleErr] (by decide)).1,
   (c1_cursor_monotone_unique_presentation Json.parseDoc wStateEmpty
      [wCycleA, wCycleB, wCycleErr] (by decide)).2.1⟩

lemma results_ids_gt_cursor (jsonOf : String → Option Json)
    (st : NotifyOrchestrator) (c : CycleInput)
    (h : ReadOk st.last_rowid c.readResult) :
    ∀ a ∈ (runCycle jsonOf st c).2.results, st.last_rowid < a.id := by
  intro a ha
  have hid : a.id ∈ ((runCycle jsonOf st c).2.results).map (fun a => a.id) :=
    List.mem_map_of_mem _ ha
  rw [(runCycle_proj jsonOf st c).2.1, batch_results_ids,
    ← (runCycle_proj jsonOf st c).1] at hid
  rw [List.mem_map] at hid
  obtain ⟨p, hp, hpe⟩ := hid
  rw [← hpe]
  exact pending_gt_cursor jsonOf st c h p hp

lemma not_stored_sticky (jsonOf : String → Option Json) :
    ∀ (cs : List CycleInput) (st : NotifyOrchestrator) (r : Int),
      ValidRun jsonOf st cs → r ≤ st.last_rowid →
      r ∉ st.collected.map (fun a => a.id) →
      ∀ s ∈ cycleStates jsonOf st cs,
        r ∉ s.collected.map (fun a => a.id) := by
  intro cs
  induction cs with
  | nil =>
    intro st r _ _ hnot s hs
    simp only [cycleStates, List.mem_singleton] at hs
    subst hs
    exact hnot
  | cons c cs ih =>
    intro st r hv hle hnot s hs
    simp only [cycleStates] at hs
    rcases List.mem_cons.mp hs with rfl | hmem
    · exact hnot
    · refine ih _ r hv.2 (le_trans hle (step_cursor_lower jsonOf st c hv.1))
        ?_ s hmem
      rw [runCycle_collected, List.map_append]
      rw [List.mem_append]
      rintro (hin | hin)
      · exact hnot hin
      · rw [List.mem_map] at hin
        obtain ⟨a, ha, rfl⟩ := hin
        exact absurd hle
          (not_le.mpr (results_ids_gt_cursor jsonOf st c hv.1 a ha))

lemma pending_empty_of_inactive (jsonOf : String → Option Json)
    (st : NotifyOrchestrator) (fr : Except Unit String)
    (r : Except Unit (List Notification))
    (h : get_state jsonOf fr = FocusState.Inactive) :
    (poll_read_new jsonOf st fr r).2.pending = [] := by
  have hd : decide (get_state jsonOf fr = FocusState.Active) = false := by
    rw [h]
    rfl
  cases r with
  | error e => rfl
  | ok l =>
    rw [poll_read_new_ok_pending, hd]
    simp

/-- C3: when the mode is Inactive during a cycle's ReadAndDetect phase,
the cycle presents nothing to Classify, the cursor still advances past
every record read in that cycle, and no such record's rowid ever appears
among the stored ids in that cycle's state or any later state of the
run. -/
theorem c3_inactive_read_never_stored
    (jsonOf : String → Option Json) (st : NotifyOrchestrator)
    (c : CycleInput) (cs : List CycleInput)
    (hvalid : ValidRun jsonOf st (c :: cs))
    (hmode : get_state jsonOf c.focusRead = FocusState.Inactive)
    (l : List Notification) (hread : c.readResult = Except.ok l)
    (r : Notification) (hr : r ∈ l)
    (hfresh : r.rowid ∉ st.collected.map (fun a => a.id)) :
    (runCycle jsonOf st c).2.pending = []
    ∧ r.rowid ≤ (runCycle jsonOf st c).1.last_rowid
    ∧ ∀ s ∈ cycleStates jsonOf st (c :: cs),
        r.rowid ∉ s.collected.map (fun a => a.id) := by
  have hvr : ReadOk st.last_rowid c.readResult := hvalid.1
  have hpend : (runCycle jsonOf st c).2.pending = [] := by
    rw [(runCycle_proj jsonOf st c).1]
    exact pending_empty_of_inactive jsonOf st c.focusRead c.readResult hmode
  have hcursor : r.rowid ≤ (runCycle jsonOf st c).1.last_rowid := by
    rw [runCycle_last_rowid, hread, poll_read_new_ok_last_rowid]
    rw [hread] at hvr
    cases hl : l.getLast? with
    | none =>
      rw [List.getLast?_eq_none_iff] at hl
      subst hl
      cases hr
    | some x =>
      exact pairwise_rowid_le_getLast l hvr.1 x hl r hr
  have hresults : (runCycle jsonOf st c).2.results = [] := by
    rw [(runCycle_proj jsonOf st c).2.1, ← (runCycle_proj jsonOf st c).1,
      hpend]
    rfl
  have hcoll : (runCycle jsonOf st c).1.collected = st.collected := by
    rw [runCycle_collected, hresults, List.append_nil]
  refine ⟨hpend, hcursor, ?_⟩
  intro s hs
  simp only [cycleStates] at hs
  rcases List.mem_cons.mp hs with rfl | hmem
  · exact hfresh
  · refine not_stored_sticky jsonOf cs _ r.rowid hvalid.2 hcursor ?_ s hmem
    rw [hcoll]
    exact hfresh

/-- C3 witness: on a concrete valid run that reads record 1 while the
mode is Inactive and then records 2, 3 while Active, record 1 is never
classified and never stored while the cursor passed it. -/
theorem c3_witness :
    (runCycle Json.parseDoc wStateEmpty wCycleInactive).2.pending = []
    ∧ (1 : Int) ≤ (runCycle Json.parseDoc wStateEmpty wCycleInactive).1.last_rowid
    ∧ ∀ s ∈ cycleStates Json.parseDoc wStateEmpty [wCycleInactive, wCycleAfter],
        (1 : Int) ∉ s.collected.map (fun a => a.id) := by
  have h := c3_inactive_read_never_stored Json.parseDoc wStateEmpty
    wCycleInactive [wCycleAfter] (by decide) (by decide) [wNote 1] rfl
    (wNote 1) (by decide) (by decide)
  exact h

lemma runCycle_count (jsonOf : String → Option Json)
    (st : NotifyOrchestrator) (c : CycleInput) :
    (runCycle jsonOf st c).2.focusEndedCount =
      (if (poll_read_new jsonOf st c.focusRead c.readResult).2.focus_ended then
        some (on_focus_ended_count (runCycle jsonOf st c).1) else none) := rfl

/-- C4: an Active-to-Inactive transition with 3 stored notifications
fires the mode-ended side effect exactly once, reporting count 3, and a
following cycle that is still Inactive does not refire it; in general
the flag is set exactly when the previous cycle's mode was Active, the
current mode is Inactive, and the store is non-empty. -/
theorem c4_focus_ended_fires_once
    (jsonOf : String → Option Json) (st : NotifyOrchestrator)
    (c1 c2 : CycleInput)
    (hwas : st.was_focused = true)
    (hlen : st.collected.length = 3)
    (hm1 : get_state jsonOf c1.focusRead = FocusState.Inactive)
    (hm2 : get_state jsonOf c2.focusRead = FocusState.Inactive) :
    (runCycle jsonOf st c1).2.focusEndedCount = some 3
    ∧ (runCycle jsonOf (runCycle jsonOf st c1).1 c2).2.focusEndedCount = none
    ∧ (∀ (st' : NotifyOrchestrator) (c' : CycleInput),
        (poll_read_new jsonOf st' c'.focusRead c'.readResult).2.focus_ended =
            true ↔
          (get_state jsonOf c'.focusRead = FocusState.Inactive ∧
            st'.was_focused = true ∧ st'.collected ≠ [])) := by
  have hiff : ∀ (st' : NotifyOrchestrator) (c' : CycleInput),
      (poll_read_new jsonOf st' c'.focusRead c'.readResult).2.focus_ended =
          true ↔
        (get_state jsonOf c'.focusRead = FocusState.Inactive ∧
          st'.was_focused = true ∧ st'.collected ≠ []) := by
    intro st' c'
    rw [poll_read_new_focus_ended]
    cases hg : get_state jsonOf c'.focusRead <;>
      cases hw : st'.was_focused <;>
      cases hc : st'.collected.isEmpty <;>
        simp_all [List.isEmpty_iff]
  have hne : st.collected ≠ [] := by
    intro hnil
    rw [hnil] at hlen
    cases hlen
  have hres1 : (runCycle jsonOf st c1).2.results = [] := by
    rw [(runCycle_proj jsonOf st c1).2.1, ← (runCycle_proj jsonOf st c1).1,
      (runCycle_proj jsonOf st c1).1,
      pending_empty_of_inactive jsonOf st c1.focusRead c1.readResult hm1]
    rfl
  have hcoll1 : (runCycle jsonOf st c1).1.collected = st.collected := by
    rw [runCycle_collected, hres1, List.append_nil]
  refine ⟨?_, ?_, hiff⟩
  · rw [runCycle_count,
      if_pos ((hiff st c1).mpr ⟨hm1, hwas, hne⟩)]
    unfold on_focus_ended_count
    rw [hcoll1, hlen]
  · rw [runCycle_count]
    rw [if_neg]
    intro hcontra
    have := ((hiff _ c2).mp hcontra).2.1
    rw [runCycle_was_focused, hm1] at this
    cases this

/-- C4 witness: the concrete transition from a focused state holding
three notifications to two Inactive cycles fires the count-3 side effect
in the first cycle only. -/
theorem c4_witness :
    (runCycle Json.parseDoc wStateThree wCycleErr).2.focusEndedCount = some 3
    ∧ (runCycle Json.parseDoc (runCycle Json.parseDoc wStateThree wCycleErr).1
        wCycleErr).2.focusEndedCount = none := by
  have h := c4_focus_ended_fires_once Json.parseDoc wStateThree wCycleErr
    wCycleErr rfl rfl rfl rfl
  exact ⟨h.1, h.2.1⟩

lemma insertGrouped_key_invariant
    (key : String) (v : UiNotification) (hv : v.bundle_id = key) :
    ∀ (m : List (String × List UiNotification)),
      (∀ kv ∈ m, ∀ x ∈ kv.2, x.bundle_id = kv.1) →
      ∀ kv ∈ insertGrouped key v m, ∀ x ∈ kv.2, x.bundle_id = kv.1 := by
  intro m
  induction m with
  | nil =>
    intro _ kv hkv x hx
    simp only [insertGrouped, List.mem_singleton] at hkv
    subst hkv
    simp only [List.mem_singleton] at hx
    subst hx
    exact hv
  | cons head tail ih =>
    intro hm kv hkv x hx
    simp only [insertGrouped] at hkv
    split at hkv
    · rcases List.mem_cons.mp hkv with rfl | hkv'
      · simp only [List.mem_singleton] at hx
        subst hx
        exact hv
      · exact hm kv hkv' x hx
    · split at hkv
      · rcases List.mem_cons.mp hkv with rfl | hkv'
        · rcases List.mem_append.mp hx with hx' | hx'
          · rename_i heq
            exact hm head (List.mem_cons_self head tail) x hx'
          · simp only [List.mem_singleton] at hx'
            subst hx'
            rename_i heq
            rw [hv, heq]
        · exact hm kv (List.mem_cons_of_mem head hkv') x hx
      · rcases List.mem_cons.mp hkv with rfl | hkv'
        · exact hm head (List.mem_cons_self _ _) x hx
        · exact ih (fun kv' hkv' => hm kv' (List.mem_cons_of_mem head hkv'))
            kv hkv' x hx

lemma grouped_fold_invariant :
    ∀ (items : List AnalyzedNotification)
      (m : List (String × List UiNotification)),
      (∀ kv ∈ m, ∀ x ∈ kv.2, x.bundle_id = kv.1) →
      ∀ kv ∈ items.foldl
          (fun m item => insertGrouped item.bundle_id (toUi item) m) m,
        ∀ x ∈ kv.2, x.bundle_id = kv.1 := by
  intro items
  induction items with
  | nil => intro m hm; exact hm
  | cons i rest ih =>
    intro m hm
    exact ih _ (insertGrouped_key_invariant i.bundle_id (toUi i) rfl m hm)

lemma insertGrouped_nonempty
    (key : String) (v : UiNotification) :
    ∀ (m : List (String × List UiNotification)),
      (∀ kv ∈ m, kv.2 ≠ []) →
      ∀ kv ∈ insertGrouped key v m, kv.2 ≠ [] := by
  intro m
  induction m with
  | nil =>
    intro _ kv hkv
    simp only [insertGrouped, List.mem_singleton] at hkv
    subst hkv
    simp
  | cons head tail ih =>
    intro hm kv hkv
    simp only [insertGrouped] at hkv
    split at hkv
    · rcases List.mem_cons.mp hkv with rfl | hkv'
      · simp
      · exact hm kv hkv'
    · split at hkv
      · rcases List.mem_cons.mp hkv with rfl | hkv'
        · simp
        · exact hm kv (List.mem_cons_of_mem head hkv')
      · rcases List.mem_cons.mp hkv with rfl | hkv'
        · exact hm head (List.mem_cons_self _ _)
        · exact ih (fun kv' h => hm kv' (List.mem_cons_of_mem head h)) kv hkv'

lemma grouped_fold_nonempty :
    ∀ (items : List AnalyzedNotification)
      (m : List (String × List UiNotification)),
      (∀ kv ∈ m, kv.2 ≠ []) →
      ∀ kv ∈ items.foldl
          (fun m item => insertGrouped item.bundle_id (toUi item) m) m,
        kv.2 ≠ [] := by
  intro items
  induction items with
  | nil => intro m hm; exact hm
  | cons i rest ih =>
    intro m hm
    exact ih _ (insertGrouped_nonempty i.bundle_id (toUi i) m hm)

lemma insertGrouped_flatten_perm
    (key : String) (v : UiNotification) :
    ∀ (m : List (String × List UiNotification)),
      (((insertGrouped key v m).map (fun kv => kv.2)).flatten).Perm
        (v :: ((m.map (fun kv => kv.2)).flatten)) := by
  intro m
  induction m with
  | nil => simp [insertGrouped]
  | cons head tail ih =>
    simp only [insertGrouped]
    split
    · simp
    · split
      · simp only [List.map_cons, List.flatten_cons]
        have : (head.2 ++ [v]) ++ (tail.map (fun kv => kv.2)).flatten =
            head.2 ++ ([v] ++ (tail.map (fun kv => kv.2)).flatten) := by
          rw [List.append_assoc]
        rw [this]
        exact List.perm_middle.trans (by rfl)
      · simp only [List.map_cons, List.flatten_cons]
        refine ((List.Perm.append_left head.2 ih).trans ?_)
        exact List.perm_middle

lemma fold_flatten_perm :
    ∀ (items : List AnalyzedNotification)
      (m : List (String × List UiNotification)),
      ((items.foldl
        (fun m item => insertGrouped item.bundle_id (toUi item) m) m).map
          (fun kv => kv.2)).flatten.Perm
        (items.map toUi ++ ((m.map (fun kv => kv.2)).flatten)) := by
  intro items
  induction items with
  | nil =>
    intro m
    simp
  | cons i rest ih =>
    intro m
    have h1 := ih (insertGrouped i.bundle_id (toUi i) m)
    have h2 := insertGrouped_flatten_perm i.bundle_id (toUi i) m
    refine (h1.trans ?_)
    refine ((List.Perm.append_left (rest.map toUi) h2).trans ?_)
    exact List.perm_middle.trans (by simp)

lemma flatten_insertion_per_component :
    ∀ (m : List (String × List UiNotification)),
      ((m.map (fun kv => kv.2.insertionSort newerFirst)).flatten).Perm
        ((m.map (fun kv => kv.2)).flatten) := by
  intro m
  induction m with
  | nil => simp
  | cons head tail ih =>
    simp only [List.map_cons, List.flatten_cons]
    exact (List.perm_insertionSort newerFirst head.2).append ih

lemma sorted_head_max (l : List UiNotification)
    (h : List.Pairwise newerFirst l) :
    ∀ x ∈ l, x.timestamp ≤ ((l.head?.map (fun n => n.timestamp)).getD 0) := by
  cases l with
  | nil => simp
  | cons a t =>
    intro x hx
    simp only [List.head?_cons, Option.map_some', Option.getD_some]
    rcases List.mem_cons.mp hx with rfl | hx'
    · exact le_refl _
    · exact (List.pairwise_cons.mp h).1 x hx'

lemma char_toNat_inj (a b : Char) (h : a.toNat = b.toNat) : a = b :=
  Char.ext (UInt32.ext h)

lemma charsLt_irrefl : ∀ (a : List Char), charsLt a a = false := by
  intro a
  induction a with
  | nil => rfl
  | cons h t ih => simp [charsLt, ih]

lemma strLt_ne (a b : String) (h : strLt a b = true) : a ≠ b := by
  intro heq
  subst heq
  rw [show strLt a a = charsLt a.toList a.toList from rfl, charsLt_irrefl] at h
  cases h

lemma charsLt_trans :
    ∀ (a b c : List Char), charsLt a b = true → charsLt b c = true →
      charsLt a c = true := by
  intro a
  induction a with
  | nil =>
    intro b c hab hbc
    cases b with
    | nil => exact absurd hab (by simp [charsLt])
    | cons bh bt =>
      cases c with
      | nil => exact absurd hbc (by simp [charsLt])
      | cons ch ct => rfl
  | cons ah t ih =>
    intro b c hab hbc
    cases b with
    | nil => exact absurd hab (by simp [charsLt])
    | cons bh bt =>
      cases c with
      | nil => exact absurd hbc (by simp [charsLt])
      | cons ch ct =>
        simp only [charsLt] at hab hbc ⊢
        by_cases h1 : ah.toNat < bh.toNat
        · by_cases h3 : bh.toNat < ch.toNat
          · rw [if_pos (Nat.lt_trans h1 h3)]
          · by_cases h4 : ch.toNat < bh.toNat
            · rw [if_neg h3, if_pos h4] at hbc
              exact absurd hbc (by simp)
            · rw [if_pos (show ah.toNat < ch.toNat by omega)]
        · by_cases h2 : bh.toNat < ah.toNat
          · rw [if_neg h1, if_pos h2] at hab
            exact absurd hab (by simp)
          · rw [if_neg h1, if_neg h2] at hab
            by_cases h3 : bh.toNat < ch.toNat
            · rw [if_pos (show ah.toNat < ch.toNat by omega)]
            · by_cases h4 : ch.toNat < bh.toNat
              · rw [if_neg h3, if_pos h4] at hbc
                exact absurd hbc (by simp)
              · rw [if_neg h3, if_neg h4] at hbc
                rw [if_neg (show ¬ ah.toNat < ch.toNat by omega),
                  if_neg (show ¬ ch.toNat < ah.toNat by omega)]
                exact ih bt ct hab hbc

lemma charsLt_connex :
    ∀ (a b : List Char), ¬ charsLt a b = true → ¬ charsLt b a = true →
      a = b := by
  intro a
  induction a with
  | nil =>
    intro b h1 _
    cases b with
    | nil => rfl
    | cons bh bt => exact absurd rfl h1
  | cons ah t ih =>
    intro b h1 h2
    cases b with
    | nil => exact absurd rfl h2
    | cons bh bt =>
      simp only [charsLt] at h1 h2
      by_cases hlt : ah.toNat < bh.toNat
      · rw [if_pos hlt] at h1
        exact absurd rfl h1
      · by_cases hgt : bh.toNat < ah.toNat
        · rw [if_pos hgt] at h2
          exact absurd rfl h2
        · have hch : ah = bh := char_toNat_inj _ _ (by omega)
          rw [if_neg hlt, if_neg hgt] at h1
          rw [if_neg hgt, if_neg hlt] at h2
          rw [hch, ih bt h1 h2]

lemma strLt_asymm_of (a b : String) (h1 : ¬ strLt a b = true)
    (hne : ¬ a = b) : strLt b a = true := by
  by_contra h2
  refine hne ?_
  rw [String.ext_iff]
  exact charsLt_connex a.toList b.toList h1 h2

lemma insertGrouped_key_mem (key : String) (v : UiNotification) :
    ∀ (m : List (String × List UiNotification))
      (kv : String × List UiNotification),
      kv ∈ insertGrouped key v m → kv.1 = key ∨ kv.1 ∈ m.map Prod.fst := by
  intro m
  induction m with
  | nil =>
    intro kv hkv
    simp only [insertGrouped, List.mem_singleton] at hkv
    subst hkv
    exact Or.inl rfl
  | cons head tail ih =>
    intro kv hkv
    simp only [insertGrouped] at hkv
    split at hkv
    · rcases List.mem_cons.mp hkv with rfl | h'
      · exact Or.inl rfl
      · exact Or.inr (List.mem_map_of_mem _ h')
    · split at hkv
      · rcases List.mem_cons.mp hkv with rfl | h'
        · exact Or.inr (show head.1 ∈ (head :: tail).map Prod.fst from
            List.mem_map_of_mem _ (List.mem_cons_self _ _))
        · exact Or.inr (List.mem_map_of_mem _ (List.mem_cons_of_mem head h'))
      · rcases List.mem_cons.mp hkv with rfl | h'
        · exact Or.inr (List.mem_map_of_mem _ (List.mem_cons_self _ _))
        · rcases ih kv h' with h'' | h''
          · exact Or.inl h''
          · refine Or.inr ?_
            rw [List.map_cons]
            exact List.mem_cons_of_mem _ h''

lemma insertGrouped_sorted (key : String) (v : UiNotification) :
    ∀ (m : List (String × List UiNotification)),
      List.Pairwise (fun a b => strLt a.1 b.1 = true) m →
      List.Pairwise (fun a b => strLt a.1 b.1 = true)
        (insertGrouped key v m) := by
  intro m
  induction m with
  | nil =>
    intro _
    simp [insertGrouped]
  | cons head tail ih =>
    intro hm
    rw [List.pairwise_cons] at hm
    obtain ⟨hhead, htail⟩ := hm
    simp only [insertGrouped]
    split
    · rename_i hlt
      rw [List.pairwise_cons]
      refine ⟨?_, List.pairwise_cons.mpr ⟨hhead, htail⟩⟩
      intro b hb
      rcases List.mem_cons.mp hb with rfl | hb'
      · exact hlt
      · exact charsLt_trans _ _ _ hlt (hhead b hb')
    · split
      · rw [List.pairwise_cons]
        exact ⟨fun b hb => hhead b hb, htail⟩
      · rename_i hnlt hne
        rw [List.pairwise_cons]
        refine ⟨?_, ih htail⟩
        intro b hb
        rcases insertGrouped_key_mem key v tail b hb with hbk | hbm
        · rw [hbk]
          exact strLt_asymm_of key head.1 hnlt hne
        · rw [List.mem_map] at hbm
          obtain ⟨kv', hkv', hfst⟩ := hbm
          rw [← hfst]
          exact hhead kv' hkv'

lemma grouped_fold_sorted :
    ∀ (items : List AnalyzedNotification)
      (m : List (String × List UiNotification)),
      List.Pairwise (fun a b => strLt a.1 b.1 = true) m →
      List.Pairwise (fun a b => strLt a.1 b.1 = true)
        (items.foldl
          (fun m item => insertGrouped item.bundle_id (toUi item) m) m) := by
  intro items
  induction items with
  | nil => intro m hm; exact hm
  | cons i rest ih =>
    intro m hm
    exact ih _ (insertGrouped_sorted i.bundle_id (toUi i) m hm)

/-- C8: for every store state, groupedView partitions exactly the stored
notifications into groups that carry their bundle identifier, orders the
members of each group newest-first by timestamp, and orders the groups by
the timestamp of their newest (first) member, descending; every group is
non-empty, the first member realises the group's maximum timestamp, and
there is exactly one group per bundle identifier: the group keys are
pairwise distinct, so groups with equal keys coincide. -/
theorem c8_grouped_view_ordering (st : NotifyOrchestrator) :
    (∀ g ∈ notification_groups st, ∀ x ∈ g.notifications,
      x.bundle_id = g.bundle_id)
    ∧ (((notification_groups st).map
        (fun g => g.notifications)).flatten).Perm (st.collected.map toUi)
    ∧ (∀ g ∈ notification_groups st,
        List.Pairwise newerFirst g.notifications)
    ∧ List.Pairwise groupNewerFirst (notification_groups st)
    ∧ (∀ g ∈ notification_groups st, ∀ x ∈ g.notifications,
        x.timestamp ≤ groupTs g)
    ∧ (∀ g ∈ notification_groups st, g.notifications ≠ [])
    ∧ ((notification_groups st).map (fun g => g.bundle_id)).Nodup
    ∧ (∀ g1 ∈ notification_groups st, ∀ g2 ∈ notification_groups st,
        g1.bundle_id = g2.bundle_id → g1 = g2) := by
  have hkeys : ((notification_groups st).map (fun g => g.bundle_id)).Nodup := by
    unfold notification_groups
    rw [((List.perm_insertionSort groupNewerFirst _).map
      (fun g => g.bundle_id)).nodup_iff]
    rw [List.map_map]
    have hcomp1 : ((fun g : UiNotificationGroup => g.bundle_id) ∘
        (fun kv : String × List UiNotification =>
          ({ bundle_id := kv.1,
             app_name := ((kv.2.insertionSort newerFirst).head?.map
               (fun n => n.app_name)).getD (app_name_from_bundle kv.1),
             notifications := kv.2.insertionSort newerFirst } :
            UiNotificationGroup))) = Prod.fst := rfl
    rw [hcomp1]
    show List.Pairwise (fun a b => a ≠ b) _
    rw [List.pairwise_map]
    exact (grouped_fold_sorted st.collected.reverse []
      List.Pairwise.nil).imp (fun h => strLt_ne _ _ h)
  have hmem : ∀ g ∈ notification_groups st,
      ∃ kv ∈ st.collected.reverse.foldl
          (fun m item => insertGrouped item.bundle_id (toUi item) m) [],
        g = { bundle_id := kv.1,
              app_name := ((kv.2.insertionSort newerFirst).head?.map
                (fun n => n.app_name)).getD (app_name_from_bundle kv.1),
              notifications := kv.2.insertionSort newerFirst } := by
    intro g hg
    unfold notification_groups at hg
    rw [(List.perm_insertionSort groupNewerFirst _).mem_iff] at hg
    rw [List.mem_map] at hg
    obtain ⟨kv, hkv, rfl⟩ := hg
    exact ⟨kv, hkv, rfl⟩
  have hinv := grouped_fold_invariant st.collected.reverse []
    (by intro kv hkv; cases hkv)
  have hne := grouped_fold_nonempty st.collected.reverse []
    (by intro kv hkv; cases hkv)
  refine ⟨?_, ?_, ?_, ?_, ?_, ?_, hkeys,
    fun g1 h1 g2 h2 heq => List.inj_on_of_nodup_map hkeys h1 h2 heq⟩
  · intro g hg x hx
    obtain ⟨kv, hkv, rfl⟩ := hmem g hg
    rw [(List.perm_insertionSort newerFirst kv.2).mem_iff] at hx
    exact hinv kv hkv x hx
  · unfold notification_groups
    refine (((List.perm_insertionSort groupNewerFirst _).map
      (fun g => g.notifications)).flatten.trans ?_)
    rw [List.map_map]
    have hcomp : ((fun g : UiNotificationGroup => g.notifications) ∘
        (fun kv : String × List UiNotification =>
          ({ bundle_id := kv.1,
             app_name := ((kv.2.insertionSort newerFirst).head?.map
               (fun n => n.app_name)).getD (app_name_from_bundle kv.1),
             notifications := kv.2.insertionSort newerFirst } :
            UiNotificationGroup))) =
        (fun kv : String × List UiNotification =>
          kv.2.insertionSort newerFirst) := rfl
    rw [hcomp]
    refine ((flatten_insertion_per_component _).trans ?_)
    refine ((fold_flatten_perm st.collected.reverse []).trans ?_)
    simp only [List.map_nil, List.flatten_nil, List.append_nil]
    exact (List.reverse_perm st.collected).map toUi
  · intro g hg
    obtain ⟨kv, hkv, rfl⟩ := hmem g hg
    exact List.sorted_insertionSort newerFirst kv.2
  · unfold notification_groups
    exact List.sorted_insertionSort groupNewerFirst _
  · intro g hg x hx
    have hsorted : List.Pairwise newerFirst g.notifications := by
      obtain ⟨kv, hkv, rfl⟩ := hmem g hg
      exact List.sorted_insertionSort newerFirst kv.2
    exact sorted_head_max g.notifications hsorted x hx
  · intro g hg
    obtain ⟨kv, hkv, rfl⟩ := hmem g hg
    intro hcontra
    refine hne kv hkv ?_
    have := congrArg List.length hcontra
    rw [(List.perm_insertionSort newerFirst kv.2).length_eq] at this
    exact List.length_eq_zero.mp this

/-- C8 witness: for the concrete three-notification store, the grouped
view is a partition of the stored notifications, the groups are ordered
newest-first, and each bundle identifier heads exactly one group. -/
theorem c8_witness :
    (((notification_groups c9_store).map
      (fun g => g.notifications)).flatten).Perm (c9_store.collected.map toUi)
    ∧ List.Pairwise groupNewerFirst (notification_groups c9_store)
    ∧ ((notification_groups c9_store).map (fun g => g.bundle_id)).Nodup :=
  ⟨(c8_grouped_view_ordering c9_store).2.1,
   (c8_grouped_view_ordering c9_store).2.2.2.1,
   (c8_grouped_view_ordering c9_store).2.2.2.2.2.2.1⟩
